import Mathlib

/- Shallow embedding of the customer-analytics repository
   (src/analytics.py, src/data_processing.py, src/data_pipeline.py).

   Modelling conventions:
   - pandas floating point amounts are modelled as exact rationals (Rat);
   - timestamps are integer day numbers (Int), so date subtraction in whole
     days is integer subtraction;
   - a DataFrame of transactions is a List of records; pandas groupby sorts
     its group keys ascending, which is modelled by sorting the deduplicated
     key list;
   - Series.rank with method "first" gives every element a distinct rank in
     1..n: rank of element i = 1 + (number of elements strictly smaller)
         + (number of equal elements occurring at an earlier position);
   - pd.qcut(ranks, q := 4) computes linear-interpolation quantile edges of
     the rank multiset.  Since the ranks are exactly a permutation of 1..n,
     the edges are 1 + k*(n-1)/4 for k = 0..4, and the bin of rank r is the
     number of interior edges strictly below r (the lowest edge is
     inclusive).  With integer arithmetic: edge k is below r iff
     k*(n-1) < 4*(r-1).  qcut raises ValueError exactly when two edges
     coincide, i.e. when n < 2 (for n = 0 all edges are NaN, for n = 1 all
     edges equal 1; for n ≥ 2 the five edges are strictly increasing);
   - Series.sort_values(ascending := False) computes an ascending argsort of
     the values and reverses the resulting indexer (pandas nargsort), which
     is modelled as a stable ascending insertion sort followed by
     List.reverse. -/

/-- A transaction record after cleaning and feature derivation
    (transform_data adds TotalPrice = Quantity * UnitPrice and parses
    InvoiceDate). -/
structure Tx where
  InvoiceNo : Nat
  CustomerID : Nat
  InvoiceDate : Int
  Quantity : Int
  UnitPrice : Rat
  TotalPrice : Rat
  Description : String
  Country : String
deriving DecidableEq, Repr, Inhabited

/-- Maximum of a list of elements of a linear order (pandas Series.max);
    the empty list is never used on the paths that matter. -/
def listMax {α : Type} [LinearOrder α] [Inhabited α] : List α → α
  | [] => default
  | [x] => x
  | x :: y :: ys => max x (listMax (y :: ys))

/-- Minimum of a list (pandas Series.min). -/
def listMin {α : Type} [LinearOrder α] [Inhabited α] : List α → α
  | [] => default
  | [x] => x
  | x :: y :: ys => min x (listMin (y :: ys))

/-- Series.rank(method := "first"): rank values ascending, ties broken by
    position, so every element gets a distinct rank in 1..n. -/
def rankFirst {α : Type} [LinearOrder α] [Inhabited α] (xs : List α) : List Nat :=
  (List.range xs.length).map (fun i =>
    1 + ((Finset.range xs.length).filter (fun j =>
      xs.getD j default < xs.getD i default ∨
      (xs.getD j default = xs.getD i default ∧ j < i))).card)

/-- The qcut(q := 4) bin index (0..3) of rank r among the ranks 1..n:
    the number of interior quantile edges 1 + k*(n-1)/4 (k = 1,2,3)
    strictly below r, in exact integer arithmetic. -/
def qcutBin (n r : Nat) : Nat :=
  (([1, 2, 3] : List Nat).filter (fun k => k * (n - 1) < 4 * (r - 1))).length

/-- One per-metric scoring step of calculate_rfm:
    pd.qcut(rfm[col].rank(method := "first"), q := 4, labels).astype(int),
    wrapped in try/except ValueError with the neutral-score fallback
    rfm[col[0]] = 2.  qcut on the distinct first-occurrence ranks raises
    exactly when the population has fewer than 2 customers.  Ascending
    labels are 1,2,3,4 (Frequency, Monetary); descending labels are
    4,3,2,1 (Recency). -/
def scoreMetric {α : Type} [LinearOrder α] [Inhabited α] (asc : Bool) (xs : List α) : List Nat :=
  if xs.length < 2 then
    xs.map (fun _ => 2)
  else
    (rankFirst xs).map (fun r => if asc then qcutBin xs.length r + 1 else 4 - qcutBin xs.length r)

/-- df.groupby(CustomerID): the distinct customer identifiers, in the
    ascending order pandas groupby uses for its group keys. -/
def sortedCustomers (df : List Tx) : List Nat :=
  List.insertionSort (fun a b => a ≤ b) ((df.map (fun t => t.CustomerID)).dedup)

/-- All rows of one customer group. -/
def custRows (df : List Tx) (c : Nat) : List Tx :=
  df.filter (fun t => t.CustomerID = c)

/-- snapshot_date = df[InvoiceDate].max() + 1 day. -/
def snapshotDate (df : List Tx) : Int :=
  listMax (df.map (fun t => t.InvoiceDate)) + 1

/-- Raw Recency of a customer: (snapshot_date - date.max()).days. -/
def recencyRaw (df : List Tx) (c : Nat) : Int :=
  snapshotDate df - listMax ((custRows df c).map (fun t => t.InvoiceDate))

/-- Raw Frequency of a customer: nunique of InvoiceNo. -/
def frequencyRaw (df : List Tx) (c : Nat) : Nat :=
  (((custRows df c).map (fun t => t.InvoiceNo)).dedup).length

/-- Raw Monetary value of a customer: sum of TotalPrice. -/
def monetaryRaw (df : List Tx) (c : Nat) : Rat :=
  ((custRows df c).map (fun t => t.TotalPrice)).sum

/-- Python str of an integer-valued float64, e.g. str(numpy.float64(4.0))
    is "4.0".  DataFrame.apply(axis := 1) hands the segment lambda each row
    as a Series upcast to the common dtype of the frame; the rfm frame
    mixes int64 score columns with the float64 MonetaryValue column
    (TotalPrice = Quantity * UnitPrice is float64), so the row upcasts to
    float64 and every score is rendered with a trailing ".0". -/
def floatStr (n : Nat) : String := toString n ++ ".0"

/-- One output row of calculate_rfm, with the source column names. -/
structure RFMRow where
  CustomerID : Nat
  Recency : Int
  Frequency : Nat
  MonetaryValue : Rat
  R : Nat
  F : Nat
  M : Nat
  RFM_Segment : String
  RFM_Score : Nat
deriving DecidableEq, Repr, Inhabited

/-- calculate_rfm (src/analytics.py): per-customer aggregation into raw
    Recency, Frequency, Monetary, quartile scoring of each metric with the
    ValueError fallback, segment code built by the apply(axis := 1) lambda
    str(x.R) + str(x.F) + str(x.M) — whose row Series is upcast to float64
    by the MonetaryValue column, so each score renders as e.g. "4.0" — and
    the summed RFM score. -/
def calculate_rfm (df : List Tx) : List RFMRow :=
  let cs := sortedCustomers df
  let recs := cs.map (recencyRaw df)
  let freqs := cs.map (frequencyRaw df)
  let mons := cs.map (monetaryRaw df)
  let rS := scoreMetric false recs
  let fS := scoreMetric true freqs
  let mS := scoreMetric true mons
  (List.range cs.length).map (fun i =>
    let r := rS.getD i 2
    let f := fS.getD i 2
    let m := mS.getD i 2
    { CustomerID := cs.getD i 0
      Recency := recs.getD i 0
      Frequency := freqs.getD i 0
      MonetaryValue := mons.getD i 0
      R := r
      F := f
      M := m
      RFM_Segment := floatStr r ++ floatStr f ++ floatStr m
      RFM_Score := r + f + m })

/-- get_rfm_segment_meaning (src/analytics.py): first matching branch of the
    if/elif chain wins. -/
def get_rfm_segment_meaning (row : RFMRow) : String :=
  if 4 ≤ row.R ∧ 4 ≤ row.F ∧ 4 ≤ row.M then "Best Customers"
  else if 3 ≤ row.R ∧ 3 ≤ row.F then "Loyal Customers"
  else if 3 ≤ row.R ∧ 3 ≤ row.M then "Big Spenders"
  else if row.R ≤ 2 ∧ row.F ≤ 2 then "At Risk"
  else if row.R ≤ 2 then "Needs Attention"
  else "Others"

/-- Series.sort_values(ascending := False): pandas computes an ascending
    argsort of the values (stable for the stable sort kinds) and reverses
    the indexer; modelled as a stable ascending merge sort then reverse. -/
def sort_values_desc {α β : Type} [LinearOrder β] (key : α → β) (l : List α) : List α :=
  (List.insertionSort (fun a b => key a ≤ key b) l).reverse

/-- One output row of calculate_clv, with the source column names. -/
structure CLVRow where
  CustomerID : Nat
  total_transactions : Nat
  total_products : Int
  total_revenue : Rat
  first_purchase_date : Int
  last_purchase_date : Int
  purchase_lifespan : Int
  avg_order_value : Rat
  purchase_frequency : Rat
  clv : Rat
deriving DecidableEq, Repr, Inhabited

/-- calculate_clv (src/analytics.py): per-customer aggregation, lifespan in
    days, average order value, purchase frequency with the +1 denominator
    guard, 365-day projection, sorted descending by clv. -/
def calculate_clv (df : List Tx) : List CLVRow :=
  let rows := (sortedCustomers df).map (fun c =>
    let tt := (((custRows df c).map (fun t => t.InvoiceNo)).dedup).length
    let tp := ((custRows df c).map (fun t => t.Quantity)).sum
    let tr := ((custRows df c).map (fun t => t.TotalPrice)).sum
    let fd := listMin ((custRows df c).map (fun t => t.InvoiceDate))
    let ld := listMax ((custRows df c).map (fun t => t.InvoiceDate))
    let ls := ld - fd
    let aov := tr / (tt : Rat)
    let pf := (tt : Rat) / ((ls : Rat) + 1)
    { CustomerID := c
      total_transactions := tt
      total_products := tp
      total_revenue := tr
      first_purchase_date := fd
      last_purchase_date := ld
      purchase_lifespan := ls
      avg_order_value := aov
      purchase_frequency := pf
      clv := aov * pf * 365 })
  sort_values_desc (fun r => r.clv) rows

/-- df.groupby(Description): the distinct item descriptions in the ascending
    key order pandas groupby uses. -/
def sortedDescriptions (df : List Tx) : List String :=
  List.insertionSort (fun a b => a ≤ b) ((df.map (fun t => t.Description)).dedup)

/-- Summed quantity of one item description group. -/
def qtySum (df : List Tx) (d : String) : Int :=
  ((df.filter (fun t => t.Description = d)).map (fun t => t.Quantity)).sum

/-- The grouped, summed quantity-per-description series, in grouping order. -/
def groupedQty (df : List Tx) : List (String × Int) :=
  (sortedDescriptions df).map (fun d => (d, qtySum df d))

/-- get_top_products (src/analytics.py):
    df.groupby(Description)[Quantity].sum().sort_values(ascending := False)
      .head(top_n), with top_n defaulting to 10. -/
def get_top_products (df : List Tx) (top_n : Nat := 10) : List (String × Int) :=
  (sort_values_desc (fun p => p.2) (groupedQty df)).take top_n

/-- The required_columns list of validate_data (src/data_processing.py). -/
def required_columns : List String :=
  ["InvoiceNo", "StockCode", "Description", "Quantity",
   "InvoiceDate", "UnitPrice", "CustomerID", "Country"]

/-- validate_data (src/data_processing.py): the required columns that are
    not among the input columns, in required order. -/
def validate_data (cols : List String) : List String :=
  required_columns.filter (fun c => decide (c ∉ cols))

/-- A raw CSV row before cleaning/derivation: CustomerID may be null. -/
structure RawRow where
  InvoiceNo : String
  StockCode : String
  Description : String
  Quantity : Int
  InvoiceDate : String
  UnitPrice : Rat
  CustomerID : Option Nat
  Country : String
deriving DecidableEq, Repr

/-- A Python object reference: an identity plus the current contents.  An
    in-place mutation keeps the identity and replaces the contents; the
    caller observes the new contents through its original reference. -/
structure PyObj (α : Type) where
  id : Nat
  val : α
deriving DecidableEq, Repr

/-- DataFrame.drop_duplicates(): keep the first occurrence of every row. -/
def dropDuplicates {α : Type} [DecidableEq α] : List α → List α
  | [] => []
  | x :: xs => x :: dropDuplicates (xs.filter (fun y => y ≠ x))
termination_by l => l.length
decreasing_by
  simp only [List.length_cons]
  exact Nat.lt_succ_of_le (List.length_filter_le _ _)

/-- clean_data (src/data_processing.py): df.dropna(subset := [CustomerID],
    inplace := True); df.drop_duplicates(inplace := True); return df.  Both
    steps mutate the caller's object, so the result carries the same object
    identity with the filtered, deduplicated contents. -/
def clean_data (df : PyObj (List RawRow)) : PyObj (List RawRow) :=
  ⟨df.id, dropDuplicates (df.val.filter (fun r => r.CustomerID.isSome))⟩

/-- A row of the ETL pipeline CSV (src/data_pipeline.py): date, quantity and
    revenue may be missing. -/
structure PRow where
  product_id : Nat
  date : Option Int
  quantity : Option Int
  revenue : Option Rat
deriving DecidableEq, Repr

/-- Observable effects of the ETL driver on its collaborators: the log, the
    relational sink (table drop, chunk append) and the chart sink. -/
inductive Effect where
  | logInfo : String → Effect
  | logError : String → Effect
  | dropTable : String → Effect
  | appendChunk : String → List PRow → Effect
  | savePng : String → Effect
deriving DecidableEq, Repr

/-- Effects that mutate the relational sink. -/
def isSinkMutation : Effect → Bool
  | Effect.dropTable _ => true
  | Effect.appendChunk _ _ => true
  | _ => false

/-- clean_data (src/data_pipeline.py): drop rows with missing date, fill
    missing quantity and revenue with 0. -/
def pipelineClean (df : List PRow) : List PRow :=
  (df.filter (fun r => r.date.isSome)).map (fun r =>
    { r with quantity := some (r.quantity.getD 0), revenue := some (r.revenue.getD 0) })

/-- read_csv_in_chunks (src/data_pipeline.py): the source is either present
    (a list of chunks) or absent (FileNotFoundError → logged, returns None).
    Result: emitted log effects plus the optional chunk iterator. -/
def read_csv_in_chunks (src : Option (List (List PRow))) :
    List Effect × Option (List (List PRow)) :=
  match src with
  | some chunks =>
      ([Effect.logInfo "Reading data from sales_data.csv in chunks of 10000..."], some chunks)
  | none =>
      ([Effect.logInfo "Reading data from sales_data.csv in chunks of 10000...",
        Effect.logError "File not found: sales_data.csv"], none)

/-- Per-chunk revenue per product id: cleaned_chunk.groupby(product_id)
    [revenue].sum(), keys ascending. -/
def revenuePerProduct (c : List PRow) : List (Nat × Rat) :=
  (List.insertionSort (fun a b => a ≤ b) ((c.map (fun r => r.product_id)).dedup)).map
    (fun p => (p, ((c.filter (fun r => r.product_id = p)).map (fun r => r.revenue.getD 0)).sum))

/-- Series.add(other, fill_value := 0): pointwise sum over the union of the
    keys, keys ascending. -/
def seriesAdd (a b : List (Nat × Rat)) : List (Nat × Rat) :=
  (List.insertionSort (fun x y => x ≤ y) ((a.map Prod.fst ++ b.map Prod.fst).dedup)).map
    (fun p => (p, ((a.filter (fun q => q.1 = p)).map Prod.snd).sum +
                  ((b.filter (fun q => q.1 = p)).map Prod.snd).sum))

/-- create_visualisation (src/data_pipeline.py): log, save the chart, log. -/
def create_visualisation (_insights : List (Nat × Rat)) (output_path : String) : List Effect :=
  [Effect.logInfo "Creating visualisation...",
   Effect.savePng output_path,
   Effect.logInfo ("Visualisation saved to " ++ output_path)]

/-- main (src/data_pipeline.py) as an effect trace over an abstract source:
    read the chunk iterator; if it is None the whole ETL block is skipped;
    otherwise drop the sales table, then per chunk clean and append, then
    compute the accumulated top-10 insight and render it. -/
def pipelineMain (src : Option (List (List PRow))) : List Effect :=
  [Effect.logInfo "Starting data pipeline..."] ++
  (read_csv_in_chunks src).1 ++
  (match (read_csv_in_chunks src).2 with
   | none => []
   | some chunks =>
      [Effect.dropTable "sales", Effect.logInfo "Processing chunks..."] ++
      (chunks.map (fun c =>
        [Effect.logInfo "Cleaning a chunk of data...",
         Effect.logInfo "Chunk cleaning complete.",
         Effect.appendChunk "sales" (pipelineClean c)])).flatten ++
      [Effect.logInfo "All chunks processed.",
       Effect.logInfo "Generating final insights..."] ++
      (let totals := chunks.foldl (fun acc c => seriesAdd acc (revenuePerProduct (pipelineClean c))) []
       create_visualisation ((sort_values_desc (fun p => p.2) totals).take 10) "top_10_products.png") ++
      [Effect.logInfo "Data stored successfully in sales.db."]) ++
  [Effect.logInfo "Data pipeline finished."]

/-- Failing input for the segment-code claim: one customer with fractional
    unit price 2.55 (TotalPrice 5.1), making MonetaryValue a float64 column
    as in any realistic input, so the apply(axis := 1) row upcasts the
    scores to float64 before they are stringified. -/
def cdf1 : List Tx := [⟨1, 100, 10, 2, 51/20, 51/10, "A", "UK"⟩]

/-- Four customers who all bought on the same day: the raw Recency values
    are all equal (one distinct value), yet ranking by first occurrence
    makes quartile binning succeed. -/
def cdf2 : List Tx :=
  [⟨1, 1, 10, 1, 5, 5, "A", "UK"⟩, ⟨2, 2, 10, 1, 5, 5, "A", "UK"⟩,
   ⟨3, 3, 10, 1, 5, 5, "A", "UK"⟩, ⟨4, 4, 10, 1, 5, 5, "A", "UK"⟩]

/-- A single-customer input, on which quartile binning does fail and the
    neutral fallback fires. -/
def wdf2 : List Tx := [⟨1, 9, 5, 1, 2, 2, "A", "DE"⟩]

/-- A score row with R = 4, F = 4, M = 1. -/
def wrow3 : RFMRow := ⟨0, 0, 0, 0, 4, 4, 1, "441", 9⟩

/-- A two-transaction, single-customer, single-day input for the CLV
    witness (first purchase date = last purchase date). -/
def wdf4 : List Tx := [⟨1, 7, 10, 2, 3, 6, "A", "UK"⟩, ⟨2, 7, 10, 1, 4, 4, "A", "UK"⟩]

/-- Two customers with raw Monetary values 1 < 2. -/
def wdf5 : List Tx := [⟨1, 1, 10, 1, 1, 1, "A", "UK"⟩, ⟨2, 2, 10, 1, 2, 2, "A", "UK"⟩]

/-- Two items, A and B, with tied summed quantity 5: the grouping order is
    A before B, so the claimed tie-break predicts A first. -/
def cdf6 : List Tx := [⟨1, 1, 10, 5, 1, 5, "A", "UK"⟩, ⟨2, 2, 10, 5, 1, 5, "B", "UK"⟩]

/-- The seven-column input missing exactly Country. -/
def colsNoCountry : List String :=
  ["InvoiceNo", "StockCode", "Description", "Quantity",
   "InvoiceDate", "UnitPrice", "CustomerID"]

/- ------------------------------------------------------------------ -/
/- Helper lemmas                                                      -/
/- ------------------------------------------------------------------ -/

theorem qcutBin_le_three (n r : Nat) : qcutBin n r ≤ 3 :=
  List.length_filter_le _ _

theorem qcutBin_mono (n : Nat) {r r2 : Nat} (h : r ≤ r2) :
    qcutBin n r ≤ qcutBin n r2 := by
  apply List.Sublist.length_le
  apply List.monotone_filter_right
  intro a ha
  simp only [decide_eq_true_eq] at ha ⊢
  omega

theorem scoreMetric_bounds {α : Type} [LinearOrder α] [Inhabited α]
    (asc : Bool) (xs : List α) :
    ∀ s ∈ scoreMetric asc xs, 1 ≤ s ∧ s ≤ 4 := by
  intro s hs
  unfold scoreMetric at hs
  split at hs
  · obtain ⟨x, _, rfl⟩ := List.mem_map.1 hs
    omega
  · obtain ⟨r, _, rfl⟩ := List.mem_map.1 hs
    have hb := qcutBin_le_three xs.length r
    cases asc <;> simp only [if_true, if_false, Bool.false_eq_true] <;> omega

theorem scoreMetric_getD_bounds {α : Type} [LinearOrder α] [Inhabited α]
    (asc : Bool) (xs : List α) (i : Nat) :
    1 ≤ (scoreMetric asc xs).getD i 2 ∧ (scoreMetric asc xs).getD i 2 ≤ 4 := by
  by_cases h : i < (scoreMetric asc xs).length
  · rw [List.getD_eq_getElem _ _ h]
    exact scoreMetric_bounds asc xs _ (List.getElem_mem h)
  · rw [List.getD_eq_default _ _ (by omega)]
    omega

theorem length_rankFirst {α : Type} [LinearOrder α] [Inhabited α] (xs : List α) :
    (rankFirst xs).length = xs.length := by
  simp [rankFirst]

theorem rankFirst_strictMono {α : Type} [LinearOrder α] [Inhabited α]
    (xs : List α) {i j : Nat} (hi : i < xs.length) (hj : j < xs.length)
    (h : xs.getD i default < xs.getD j default) :
    (rankFirst xs).getD i 0 < (rankFirst xs).getD j 0 := by
  have hi2 : i < (rankFirst xs).length := by rw [length_rankFirst]; exact hi
  have hj2 : j < (rankFirst xs).length := by rw [length_rankFirst]; exact hj
  rw [List.getD_eq_getElem _ _ hi2, List.getD_eq_getElem _ _ hj2]
  simp only [rankFirst, List.getElem_map, List.getElem_range]
  have hsub : (Finset.range xs.length).filter (fun k =>
        xs.getD k default < xs.getD i default ∨
        (xs.getD k default = xs.getD i default ∧ k < i)) ⊆
      (Finset.range xs.length).filter (fun k =>
        xs.getD k default < xs.getD j default ∨
        (xs.getD k default = xs.getD j default ∧ k < j)) := by
    intro k hk
    rw [Finset.mem_filter] at hk ⊢
    refine ⟨hk.1, Or.inl ?_⟩
    rcases hk.2 with hlt | ⟨heq, _⟩
    · exact lt_trans hlt h
    · rw [heq]; exact h
  have hmem : i ∈ (Finset.range xs.length).filter (fun k =>
        xs.getD k default < xs.getD j default ∨
        (xs.getD k default = xs.getD j default ∧ k < j)) := by
    rw [Finset.mem_filter, Finset.mem_range]
    exact ⟨hi, Or.inl h⟩
  have hnotmem : i ∉ (Finset.range xs.length).filter (fun k =>
        xs.getD k default < xs.getD i default ∨
        (xs.getD k default = xs.getD i default ∧ k < i)) := by
    rw [Finset.mem_filter]
    rintro ⟨-, hlt | ⟨-, hii⟩⟩
    · exact absurd hlt (lt_irrefl _)
    · exact absurd hii (lt_irrefl _)
  have hcard := Finset.card_lt_card
    ((Finset.ssubset_iff_of_subset hsub).2 ⟨i, hmem, hnotmem⟩)
  omega

theorem sort_values_desc_pairwise {α β : Type} [LinearOrder β]
    (key : α → β) (l : List α) :
    (sort_values_desc key l).Pairwise (fun a b => key b ≤ key a) := by
  unfold sort_values_desc
  rw [List.pairwise_reverse]
  haveI : IsTotal α (fun a b => key a ≤ key b) := ⟨fun a b => le_total (key a) (key b)⟩
  haveI : IsTrans α (fun a b => key a ≤ key b) := ⟨fun _ _ _ h1 h2 => le_trans h1 h2⟩
  exact List.sorted_insertionSort _ l

theorem mem_sort_values_desc {α β : Type} [LinearOrder β]
    {key : α → β} {l : List α} {a : α} (h : a ∈ sort_values_desc key l) :
    a ∈ l := by
  unfold sort_values_desc at h
  rw [List.mem_reverse] at h
  exact (List.perm_insertionSort _ _).mem_iff.1 h

theorem length_sort_values_desc {α β : Type} [LinearOrder β]
    (key : α → β) (l : List α) :
    (sort_values_desc key l).length = l.length := by
  unfold sort_values_desc
  rw [List.length_reverse, List.length_insertionSort]

theorem le_listMax {α : Type} [LinearOrder α] [Inhabited α] :
    ∀ (l : List α), ∀ x ∈ l, x ≤ listMax l := by
  intro l
  induction l with
  | nil => intro x hx; exact absurd hx (List.not_mem_nil x)
  | cons a t ih =>
    intro x hx
    cases t with
    | nil =>
      rcases List.mem_cons.1 hx with rfl | hx2
      · exact le_of_eq rfl
      · exact absurd hx2 (List.not_mem_nil x)
    | cons b u =>
      rcases List.mem_cons.1 hx with rfl | hx2
      · exact le_max_left _ _
      · exact le_trans (ih x hx2) (le_max_right _ _)

theorem listMin_le {α : Type} [LinearOrder α] [Inhabited α] :
    ∀ (l : List α), ∀ x ∈ l, listMin l ≤ x := by
  intro l
  induction l with
  | nil => intro x hx; exact absurd hx (List.not_mem_nil x)
  | cons a t ih =>
    intro x hx
    cases t with
    | nil =>
      rcases List.mem_cons.1 hx with rfl | hx2
      · exact le_of_eq rfl
      · exact absurd hx2 (List.not_mem_nil x)
    | cons b u =>
      rcases List.mem_cons.1 hx with rfl | hx2
      · exact min_le_left _ _
      · exact le_trans (min_le_right _ _) (ih x hx2)

theorem custRows_ne_nil {df : List Tx} {c : Nat}
    (hc : c ∈ sortedCustomers df) : custRows df c ≠ [] := by
  unfold sortedCustomers at hc
  rw [(List.perm_insertionSort _ _).mem_iff, List.mem_dedup, List.mem_map] at hc
  obtain ⟨t, ht, rfl⟩ := hc
  intro hnil
  have hmem : t ∈ custRows df t.CustomerID :=
    List.mem_filter.2 ⟨ht, by simp⟩
  rw [hnil] at hmem
  exact absurd hmem (List.not_mem_nil t)

theorem getD_map_const_two {γ : Type} (l : List γ) (i : Nat) :
    (l.map (fun _ => (2 : Nat))).getD i 2 = 2 := by
  by_cases h : i < (l.map (fun _ => (2 : Nat))).length
  · rw [List.getD_eq_getElem _ _ h, List.getElem_map]
  · rw [List.getD_eq_default _ _ (by omega)]

theorem mem_dropDuplicates {α : Type} [DecidableEq α] :
    ∀ {l : List α} {a : α}, a ∈ dropDuplicates l → a ∈ l := by
  intro l
  induction l using dropDuplicates.induct with
  | case1 =>
    intro a ha
    rw [dropDuplicates] at ha
    exact absurd ha (List.not_mem_nil a)
  | case2 x xs ih =>
    intro a ha
    rw [dropDuplicates] at ha
    rcases List.mem_cons.1 ha with rfl | h2
    · exact List.mem_cons_self _ _
    · exact List.mem_cons.2 (Or.inr (List.mem_of_mem_filter (ih h2)))

theorem nodup_dropDuplicates {α : Type} [DecidableEq α] :
    ∀ (l : List α), (dropDuplicates l).Nodup := by
  intro l
  induction l using dropDuplicates.induct with
  | case1 =>
    rw [dropDuplicates]
    exact List.nodup_nil
  | case2 x xs ih =>
    rw [dropDuplicates]
    refine List.nodup_cons.2 ⟨?_, ih⟩
    intro hmem
    have := List.of_mem_filter (mem_dropDuplicates hmem)
    simp at this

/- ------------------------------------------------------------------ -/
/- Claim theorems                                                     -/
/- ------------------------------------------------------------------ -/

/-- C1: code bug in the segment code.  The R, F, M bounds and the
    RFM_Score = R+F+M sum do hold of the code, but the segment code is not
    the 3-character digit concatenation the spec states: the apply(axis
    := 1) lambda sees the row upcast to float64 (the frame mixes int64
    score columns with the float64 MonetaryValue column), so each score is
    stringified as e.g. "2.0" and the segment comes out as the 9-character
    string "2.02.02.0" on the concrete fractional-price input cdf1. -/
theorem C1_segment_code_bug :
    (calculate_rfm cdf1).map (fun row => row.RFM_Segment) = ["2.02.02.0"] ∧
    (∀ row ∈ calculate_rfm cdf1,
      row.RFM_Segment.length = 9 ∧
      row.RFM_Segment ≠ toString row.R ++ toString row.F ++ toString row.M ∧
      (1 ≤ row.R ∧ row.R ≤ 4) ∧ (1 ≤ row.F ∧ row.F ≤ 4) ∧ (1 ≤ row.M ∧ row.M ≤ 4) ∧
      row.RFM_Score = row.R + row.F + row.M) := by
  with_unfolding_all decide

set_option maxRecDepth 300000 in
/-- C2 counterexample: cdf2 has a single distinct raw Recency value (fewer
    than 4), yet calculate_rfm does not assign R = 2 to every customer:
    ranking by first occurrence makes the ranks distinct, quartile binning
    succeeds, and the R scores come out 4,3,2,1. -/
theorem C2_counterexample :
    ((sortedCustomers cdf2).map (recencyRaw cdf2)).dedup.length < 4 ∧
    ¬ (∀ row ∈ calculate_rfm cdf2, row.R = 2) := by
  with_unfolding_all decide

/-- C2 amended: the R = 2 fallback fires exactly when quartile binning of
    the first-occurrence ranks fails, which happens only for populations of
    fewer than 2 customers (never merely because the raw Recency values
    have fewer than 4 distinct values); in that case R-scoring does not
    raise and every output row has R = 2. -/
theorem C2_degradation (df : List Tx)
    (h : (sortedCustomers df).length < 2) :
    ∀ row ∈ calculate_rfm df, row.R = 2 := by
  intro row hrow
  simp only [calculate_rfm, List.mem_map, List.mem_range] at hrow
  obtain ⟨i, hi, rfl⟩ := hrow
  show (scoreMetric false ((sortedCustomers df).map (recencyRaw df))).getD i 2 = 2
  unfold scoreMetric
  rw [if_pos (by rw [List.length_map]; exact h)]
  exact getD_map_const_two _ _

/-- C2 witness: on the single-customer input wdf2 the fallback yields
    R = 2. -/
theorem C2_witness : ((calculate_rfm wdf2).getD 0 default).R = 2 :=
  C2_degradation wdf2 (by with_unfolding_all decide) _ (by with_unfolding_all decide)

/-- C3: get_rfm_segment_meaning evaluates its six conditions in the source
    priority order with the first match winning (each branch label is
    returned exactly when its condition holds and every earlier condition
    fails), and in particular every row with R = 4, F = 4, M = 1 is labeled
    Loyal Customers, not Best Customers. -/
theorem C3_segment_priority (row : RFMRow) :
    ((4 ≤ row.R ∧ 4 ≤ row.F ∧ 4 ≤ row.M) →
        get_rfm_segment_meaning row = "Best Customers") ∧
    (¬(4 ≤ row.R ∧ 4 ≤ row.F ∧ 4 ≤ row.M) ∧ (3 ≤ row.R ∧ 3 ≤ row.F) →
        get_rfm_segment_meaning row = "Loyal Customers") ∧
    (¬(4 ≤ row.R ∧ 4 ≤ row.F ∧ 4 ≤ row.M) ∧ ¬(3 ≤ row.R ∧ 3 ≤ row.F) ∧
        (3 ≤ row.R ∧ 3 ≤ row.M) →
        get_rfm_segment_meaning row = "Big Spenders") ∧
    (¬(4 ≤ row.R ∧ 4 ≤ row.F ∧ 4 ≤ row.M) ∧ ¬(3 ≤ row.R ∧ 3 ≤ row.F) ∧
        ¬(3 ≤ row.R ∧ 3 ≤ row.M) ∧ (row.R ≤ 2 ∧ row.F ≤ 2) →
        get_rfm_segment_meaning row = "At Risk") ∧
    (¬(4 ≤ row.R ∧ 4 ≤ row.F ∧ 4 ≤ row.M) ∧ ¬(3 ≤ row.R ∧ 3 ≤ row.F) ∧
        ¬(3 ≤ row.R ∧ 3 ≤ row.M) ∧ ¬(row.R ≤ 2 ∧ row.F ≤ 2) ∧ row.R ≤ 2 →
        get_rfm_segment_meaning row = "Needs Attention") ∧
    (¬(4 ≤ row.R ∧ 4 ≤ row.F ∧ 4 ≤ row.M) ∧ ¬(3 ≤ row.R ∧ 3 ≤ row.F) ∧
        ¬(3 ≤ row.R ∧ 3 ≤ row.M) ∧ ¬(row.R ≤ 2 ∧ row.F ≤ 2) ∧ ¬(row.R ≤ 2) →
        get_rfm_segment_meaning row = "Others") ∧
    (row.R = 4 ∧ row.F = 4 ∧ row.M = 1 →
        get_rfm_segment_meaning row = "Loyal Customers") := by
  unfold get_rfm_segment_meaning
  refine ⟨?_, ?_, ?_, ?_, ?_, ?_, ?_⟩
  · intro h1
    rw [if_pos h1]
  · rintro ⟨h1, h2⟩
    rw [if_neg h1, if_pos h2]
  · rintro ⟨h1, h2, h3⟩
    rw [if_neg h1, if_neg h2, if_pos h3]
  · rintro ⟨h1, h2, h3, h4⟩
    rw [if_neg h1, if_neg h2, if_neg h3, if_pos h4]
  · rintro ⟨h1, h2, h3, h4, h5⟩
    rw [if_neg h1, if_neg h2, if_neg h3, if_neg h4, if_pos h5]
  · rintro ⟨h1, h2, h3, h4, h5⟩
    rw [if_neg h1, if_neg h2, if_neg h3, if_neg h4, if_neg h5]
  · rintro ⟨h1, h2, h3⟩
    rw [if_neg (by omega), if_pos (by omega)]

/-- C3 witness: the R = 4, F = 4, M = 1 row is labeled Loyal Customers. -/
theorem C3_witness : get_rfm_segment_meaning wrow3 = "Loyal Customers" :=
  (C3_segment_priority wrow3).2.2.2.2.2.2 (by decide)

theorem getD_map_eq {γ δ : Type} (f : γ → δ) (l : List γ) {i : Nat}
    (hi : i < l.length) (d : γ) (d2 : δ) :
    (l.map f).getD i d2 = f (l.getD i d) := by
  rw [List.getD_eq_getElem _ _ (by rw [List.length_map]; exact hi),
      List.getD_eq_getElem _ _ hi, List.getElem_map]

theorem length_calculate_rfm (df : List Tx) :
    (calculate_rfm df).length = (sortedCustomers df).length := by
  simp [calculate_rfm]

theorem calculate_rfm_getD (df : List Tx) {i : Nat}
    (hi : i < (sortedCustomers df).length) :
    (calculate_rfm df).getD i default =
      { CustomerID := (sortedCustomers df).getD i 0
        Recency := ((sortedCustomers df).map (recencyRaw df)).getD i 0
        Frequency := ((sortedCustomers df).map (frequencyRaw df)).getD i 0
        MonetaryValue := ((sortedCustomers df).map (monetaryRaw df)).getD i 0
        R := (scoreMetric false ((sortedCustomers df).map (recencyRaw df))).getD i 2
        F := (scoreMetric true ((sortedCustomers df).map (frequencyRaw df))).getD i 2
        M := (scoreMetric true ((sortedCustomers df).map (monetaryRaw df))).getD i 2
        RFM_Segment :=
          floatStr ((scoreMetric false ((sortedCustomers df).map (recencyRaw df))).getD i 2) ++
          floatStr ((scoreMetric true ((sortedCustomers df).map (frequencyRaw df))).getD i 2) ++
          floatStr ((scoreMetric true ((sortedCustomers df).map (monetaryRaw df))).getD i 2)
        RFM_Score :=
          (scoreMetric false ((sortedCustomers df).map (recencyRaw df))).getD i 2 +
          (scoreMetric true ((sortedCustomers df).map (frequencyRaw df))).getD i 2 +
          (scoreMetric true ((sortedCustomers df).map (monetaryRaw df))).getD i 2 } := by
  have h2 : i < (calculate_rfm df).length := by
    rw [length_calculate_rfm]; exact hi
  rw [List.getD_eq_getElem _ _ h2]
  simp only [calculate_rfm, List.getElem_map, List.getElem_range]

/-- C5: for two output rows of the same calculate_rfm run whose raw
    Monetary values satisfy m1 < m2, the M score of the m2 row is at least
    the M score of the m1 row.  (With two distinct rows present the
    population has at least 2 customers, so the Monetary metric is never
    degraded: the fallback fires only below 2 customers.) -/
theorem C5_monetary_monotone (df : List Tx) (i j : Nat)
    (hi : i < (calculate_rfm df).length) (hj : j < (calculate_rfm df).length)
    (hm : ((calculate_rfm df).getD i default).MonetaryValue <
          ((calculate_rfm df).getD j default).MonetaryValue) :
    ((calculate_rfm df).getD i default).M ≤ ((calculate_rfm df).getD j default).M := by
  rw [length_calculate_rfm] at hi hj
  rw [calculate_rfm_getD df hi, calculate_rfm_getD df hj] at hm ⊢
  dsimp only at hm ⊢
  set mons := (sortedCustomers df).map (monetaryRaw df) with hmons
  have hmlen : mons.length = (sortedCustomers df).length := by
    rw [hmons, List.length_map]
  have hij : i ≠ j := by
    intro he
    rw [he] at hm
    exact lt_irrefl _ hm
  have hn2 : ¬ (mons.length < 2) := by omega
  unfold scoreMetric
  rw [if_neg hn2]
  have hri : i < (rankFirst mons).length := by rw [length_rankFirst]; omega
  have hrj : j < (rankFirst mons).length := by rw [length_rankFirst]; omega
  rw [getD_map_eq _ _ hri 0 2, getD_map_eq _ _ hrj 0 2]
  rw [if_pos rfl, if_pos rfl]
  have hmd : mons.getD i default < mons.getD j default := hm
  have hrank := rankFirst_strictMono mons (by omega) (by omega) hmd
  exact Nat.add_le_add_right (qcutBin_mono mons.length (Nat.le_of_lt hrank)) 1

/-- C5 witness: on wdf5 (raw Monetary values 1 < 2) the M scores are
    ordered accordingly. -/
theorem C5_witness :
    ((calculate_rfm wdf5).getD 0 default).M ≤ ((calculate_rfm wdf5).getD 1 default).M :=
  C5_monetary_monotone wdf5 0 1 (by with_unfolding_all decide)
    (by with_unfolding_all decide) (by with_unfolding_all decide)

theorem clv_row_props (df : List Tx) (row : CLVRow) (h : row ∈ calculate_clv df) :
    0 < row.purchase_lifespan + 1 ∧
    row.purchase_frequency =
      (row.total_transactions : Rat) / ((row.purchase_lifespan : Rat) + 1) ∧
    (row.first_purchase_date = row.last_purchase_date →
     row.purchase_frequency = (row.total_transactions : Rat)) := by
  simp only [calculate_clv] at h
  have h2 := mem_sort_values_desc h
  rw [List.mem_map] at h2
  obtain ⟨c, hc, rfl⟩ := h2
  dsimp only
  refine ⟨?_, rfl, ?_⟩
  · have hnil := custRows_ne_nil hc
    obtain ⟨t, ht⟩ := List.exists_mem_of_ne_nil _ hnil
    have hx : t.InvoiceDate ∈ (custRows df c).map (fun t => t.InvoiceDate) :=
      List.mem_map_of_mem _ ht
    have hlo := listMin_le _ _ hx
    have hhi := le_listMax _ _ hx
    omega
  · intro heq
    rw [show listMax ((custRows df c).map (fun t => t.InvoiceDate)) -
          listMin ((custRows df c).map (fun t => t.InvoiceDate)) = (0 : Int) from by omega]
    simp

/-- C4: every calculate_clv output row has purchase_lifespan + 1 positive
    (so purchase_frequency = total_transactions / (purchase_lifespan + 1)
    never divides by zero), a customer whose first and last purchase dates
    coincide gets purchase_frequency equal to the transaction count, and
    the returned collection is sorted descending by projected clv. -/
theorem C4_clv_properties (df : List Tx) (_hne : df ≠ []) (i : Nat)
    (hi : i < (calculate_clv df).length) :
    (0 < ((calculate_clv df).getD i default).purchase_lifespan + 1 ∧
     ((calculate_clv df).getD i default).purchase_frequency =
       (((calculate_clv df).getD i default).total_transactions : Rat) /
         ((((calculate_clv df).getD i default).purchase_lifespan : Rat) + 1) ∧
     (((calculate_clv df).getD i default).first_purchase_date =
        ((calculate_clv df).getD i default).last_purchase_date →
      ((calculate_clv df).getD i default).purchase_frequency =
        (((calculate_clv df).getD i default).total_transactions : Rat))) ∧
    (calculate_clv df).Pairwise (fun a b => b.clv ≤ a.clv) := by
  refine ⟨?_, ?_⟩
  · rw [List.getD_eq_getElem _ _ hi]
    exact clv_row_props df _ (List.getElem_mem hi)
  · show (calculate_clv df).Pairwise _
    simp only [calculate_clv]
    exact sort_values_desc_pairwise _ _

/-- C4 witness: the single-day customer of wdf4 (first purchase date =
    last purchase date = 10, two invoices) has lifespan 0, denominator 1,
    purchase frequency equal to the transaction count, and the output is
    sorted. -/
theorem C4_witness :
    (0 < ((calculate_clv wdf4).getD 0 default).purchase_lifespan + 1 ∧
     ((calculate_clv wdf4).getD 0 default).purchase_frequency =
       (((calculate_clv wdf4).getD 0 default).total_transactions : Rat) /
         ((((calculate_clv wdf4).getD 0 default).purchase_lifespan : Rat) + 1) ∧
     (((calculate_clv wdf4).getD 0 default).first_purchase_date =
        ((calculate_clv wdf4).getD 0 default).last_purchase_date →
      ((calculate_clv wdf4).getD 0 default).purchase_frequency =
        (((calculate_clv wdf4).getD 0 default).total_transactions : Rat))) ∧
    (calculate_clv wdf4).Pairwise (fun a b => b.clv ≤ a.clv) :=
  C4_clv_properties wdf4 (by decide) 0 (by with_unfolding_all decide)

set_option maxRecDepth 100000 in
/-- C6 counterexample: items A and B of cdf6 tie with summed quantity 5 and
    the grouping order is A before B, so the claimed original-order
    tie-break predicts A first; get_top_products returns B first, because
    the descending sort reverses a stable ascending argsort, reversing tied
    groups. -/
theorem C6_counterexample :
    get_top_products cdf6 2 = [("B", 5), ("A", 5)] ∧
    get_top_products cdf6 2 ≠ [("A", 5), ("B", 5)] := by
  with_unfolding_all decide

/-- C6 amended: get_top_products groups by item description, sums the
    quantities per item, sorts the sums descending and truncates to the
    first n items (n defaulting to 10); ties in summed quantity are broken
    by the REVERSE of the original grouping order, because pandas reverses
    a stable ascending argsort for a descending sort. -/
theorem C6_top_products (df : List Tx) (n : Nat) :
    (get_top_products df n).Pairwise (fun a b => b.2 ≤ a.2) ∧
    (∀ p ∈ get_top_products df n, p.1 ∈ sortedDescriptions df ∧ p.2 = qtySum df p.1) ∧
    (get_top_products df n).length = min n (sortedDescriptions df).length ∧
    (∀ a b : String × Int, [a, b].Sublist (groupedQty df) → a.2 = b.2 →
       [b, a].Sublist (sort_values_desc (fun p => p.2) (groupedQty df))) := by
  refine ⟨?_, ?_, ?_, ?_⟩
  · exact (sort_values_desc_pairwise (fun p => p.2) (groupedQty df)).sublist
      (List.take_sublist _ _) |>.imp (fun h => h)
  · intro p hp
    have h1 : p ∈ sort_values_desc (fun p => p.2) (groupedQty df) :=
      List.take_subset _ _ hp
    have h2 := mem_sort_values_desc h1
    rw [groupedQty, List.mem_map] at h2
    obtain ⟨d, hd, rfl⟩ := h2
    exact ⟨hd, rfl⟩
  · rw [get_top_products, List.length_take, length_sort_values_desc,
        groupedQty, List.length_map]
  · intro a b hab heq
    unfold sort_values_desc
    have hsl : [a, b].Sublist
        (List.insertionSort
          (fun x y => (fun p : String × Int => p.2) x ≤ (fun p : String × Int => p.2) y)
          (groupedQty df)) := by
      apply List.sublist_insertionSort _ hab
      exact List.pairwise_pair.2 (le_of_eq heq)
    have := hsl.reverse
    simpa using this

/-- C6 witness: on cdf6 the tied pair A before B in grouping order comes
    out B before A in the descending sort. -/
theorem C6_witness :
    [(("B" : String), (5 : Int)), ("A", 5)].Sublist
      (sort_values_desc (fun p => p.2) (groupedQty cdf6)) :=
  (C6_top_products cdf6 2).2.2.2 ("A", 5) ("B", 5)
    (by with_unfolding_all decide) (by decide)

/-- C7: validate_data returns exactly those of the eight required columns
    that are absent from the input, and nothing else; an input missing only
    Country yields exactly the list containing Country, and an input with
    all eight columns yields the empty list. -/
theorem C7_validate_data (cols : List String) :
    (∀ c, c ∈ validate_data cols ↔ (c ∈ required_columns ∧ c ∉ cols)) ∧
    validate_data colsNoCountry = ["Country"] ∧
    validate_data required_columns = [] := by
  refine ⟨?_, by decide, by decide⟩
  intro c
  rw [validate_data, List.mem_filter]
  simp only [decide_eq_true_eq]

/-- C8: when the ETL source file cannot be located, the run emits the
    logged error and its effect trace contains no relational-sink mutation:
    no table drop and no chunk append. -/
theorem C8_source_missing_no_sink_mutation :
    (pipelineMain none).filter isSinkMutation = [] ∧
    Effect.logError "File not found: sales_data.csv" ∈ pipelineMain none := by
  with_unfolding_all decide

/-- C9: calculate_rfm is a total pure function of its input (it is a plain
    Lean function, with the single internal failure source — qcut — caught
    by the fallback branch of scoreMetric): the empty input yields the
    empty output, and every input yields exactly one output row per
    customer. -/
theorem C9_rfm_total (df0 : List Tx) :
    calculate_rfm ([] : List Tx) = [] ∧
    (calculate_rfm df0).length = (sortedCustomers df0).length := by
  constructor
  · with_unfolding_all rfl
  · simp [calculate_rfm]

/-- C10: clean_data returns the same object (same identity) as its input,
    mutated in place, and afterwards the contents reachable through the
    caller's original reference have no null CustomerID and no duplicate
    rows. -/
theorem C10_clean_data_in_place (df : PyObj (List RawRow)) :
    (clean_data df).id = df.id ∧
    (∀ r ∈ (clean_data df).val, r.CustomerID.isSome) ∧
    (clean_data df).val.Nodup := by
  refine ⟨rfl, ?_, nodup_dropDuplicates _⟩
  intro r hr
  have hmem := mem_dropDuplicates hr
  exact (List.mem_filter.1 hmem).2
